import Mathlib

/-!
Shallow embedding of `src/app.py` (portwatch.us): a vessel-tracking pipeline
that ingests AIS position reports, keeps only foreign-flagged vessels, maps
each position to the nearest of ten fixed US ports, and maintains a bounded
store that a Dash table reads.

Python floats are modelled as `ℚ`, raw JSON coordinate values (which the
feed may populate with non-numeric data) as `JVal`, Python dicts (which
preserve insertion order and keep a key's position on overwrite) as
association lists in insertion order with distinct keys, and the JSON
messages reaching `on_message` as a structure holding exactly the fields the
handler reads.
-/

/-- Model of a Python `dict` with string keys: an association list in insertion order. -/
abbrev Dict (α : Type) : Type := List (String × α)

/-- Model of a raw JSON value carried in a coordinate field of the position
block. `json.loads` may put any JSON value there: `num` covers JSON numbers
(and booleans, which Python treats as the numbers 0 and 1 in arithmetic);
`nonNum` covers the remaining values (strings, arrays, objects), all of which
make the float arithmetic in `find_nearest_port` raise `TypeError`. An absent
field (Python `None`) is modelled by `Option` at the use sites. -/
inductive JVal where
  | num (x : ℚ)
  | nonNum
deriving DecidableEq, Repr

/-- Embeds the `vessel_info` dict built in `on_message` (src/app.py:109-117).
Its keys are exactly "MMSI", "Ship Name", "Latitude", "Longitude", "Speed",
"Course" and "Port" — in particular there is no "Last Updated" key. The
"Latitude"/"Longitude" entries hold the frame's raw values verbatim
(src/app.py:112-113), so they are `JVal`, not numbers. -/
structure VesselInfo where
  mmsi : String
  shipName : String
  latitude : JVal
  longitude : JVal
  speed : Option ℚ
  course : Option ℚ
  port : String
deriving DecidableEq, Repr

/-- Scale helper: the source's decimal float literals (at most four decimal
places) written exactly as rationals. -/
def q (n : Int) : ℚ := mkRat n 10000

/-- Embeds `PORT_COORDINATES` (src/app.py:20-31): top 10 US ports with
coordinates, in the dict's fixed insertion/iteration order. -/
def PORT_COORDINATES : List (String × ℚ × ℚ) :=
  [("Los Angeles", q 337490, q (-1182645)),
   ("New York/New Jersey", q 406699, q (-741863)),
   ("Long Beach", q 337549, q (-1182187)),
   ("Savannah", q 320285, q (-811499)),
   ("Norfolk", q 368844, q (-763309)),
   ("Houston", q 296113, q (-949895)),
   ("Seattle", q 472452, q (-1224593)),
   ("Charleston", q 327789, q (-799278)),
   ("Oakland", q 377955, q (-1222807)),
   ("Miami", q 257788, q (-801780))]

/-- Names of the ten reference ports, in iteration order. -/
def PORT_NAMES : List String := PORT_COORDINATES.map Prod.fst

/-- Embeds `abs(x[1][0]-lat) + abs(x[1][1]-lon)`, the key function of the
`min` call in `find_nearest_port` (src/app.py:79). -/
def manhattan (lat lon : ℚ) (x : String × ℚ × ℚ) : ℚ :=
  |x.2.1 - lat| + |x.2.2 - lon|

/-- Model of Python's `min(seq, key=f)` on a non-empty sequence `p :: ps` as a
left fold; `min` keeps the current best on ties, so the first minimal element
wins. -/
def minFold (key : α → ℚ) (p : α) (ps : List α) : α :=
  ps.foldl (fun best x => if key x < key best then x else best) p

/-- Embeds `find_nearest_port` (src/app.py:77-81): `min` raises on an empty
sequence and the bare `except` then yields "Unknown"; on the fixed non-empty
port dict it returns the name of the first distance-minimal entry. -/
def find_nearest_port (lat lon : ℚ) : String :=
  match PORT_COORDINATES with
  | [] => "Unknown"
  | p :: ps => (minFold (manhattan lat lon) p ps).1

/-- Embeds `find_nearest_port` (src/app.py:77-81) on the raw coordinate
values it is actually called with (src/app.py:107): on numeric coordinates
the `min` succeeds and the function behaves as `find_nearest_port` above; on
a non-numeric coordinate the first evaluation of the key
`abs(x[1][0]-lat) + abs(x[1][1]-lon)` raises `TypeError`, the bare `except`
catches it, and "Unknown" is returned. -/
def find_nearest_port_raw : JVal → JVal → String
  | JVal.num lat, JVal.num lon => find_nearest_port lat lon
  | _, _ => "Unknown"

/-- Model of Python's `s.startswith(p)` on character lists (arguments: the
string first, then the candidate leading substring). -/
def startswith : List Char → List Char → Bool
  | _, [] => true
  | [], _ :: _ => false
  | c :: cs, d :: ds => (c == d) && startswith cs ds

/-- Embeds `is_foreign_ship` (src/app.py:71-75): `mmsi.startswith(('2', '3', '4'))`
— with a tuple argument, `startswith` succeeds when any candidate is a leading
substring. The bare `except` cannot fire on a string argument. -/
def is_foreign_ship (mmsi : String) : Bool :=
  startswith mmsi.data ['2'] || startswith mmsi.data ['3'] || startswith mmsi.data ['4']

/-- Keys of a store, in insertion order (`d.keys()`). -/
def keys (st : Dict α) : List String := st.map Prod.fst

/-- Values of a store, in insertion order (`d.values()`). -/
def values (st : Dict α) : List α := st.map Prod.snd

/-- Subscript read `d[k]`: the first (and in a dict, only) binding of `k`. -/
def lookup (k : String) : Dict α → Option α
  | [] => none
  | (k', v) :: rest => if k' = k then some v else lookup k rest

/-- Assignment `d[k] = v`: overwriting keeps the key's original position; a
new key is appended at the end (Python 3.7+ insertion-ordered dicts). -/
def dictInsert (k : String) (v : α) : Dict α → Dict α
  | [] => [(k, v)]
  | (k', v') :: rest => if k' = k then (k, v) :: rest else (k', v') :: dictInsert k v rest

/-- Deletion `del d[k]`: removes the binding of `k` (keys are unique in a dict). -/
def dictRemove (k : String) : Dict α → Dict α
  | [] => []
  | (k', v') :: rest => if k' = k then rest else (k', v') :: dictRemove k rest

/-- Stable insertion of `x` after every element whose key is `≤ key x`. -/
def insertByKey (key : α → Nat) (x : α) : List α → List α
  | [] => [x]
  | y :: ys => if key y ≤ key x then y :: insertByKey key x ys else x :: y :: ys

/-- Model of Python's stable `sorted(l, key=f)` as a stable insertion sort:
elements are inserted left to right, each after all elements with a
less-or-equal key, so equal-key elements keep their original order. -/
def sortByKey (key : α → Nat) (l : List α) : List α :=
  l.foldl (fun acc x => insertByKey key x acc) []

/-- Embeds `vessel_data[k].get("Last Updated", 0)` (src/app.py:128): a
`VesselInfo` record has no "Last Updated" key (see the structure above), so
the lookup always returns the default `0`, whatever `k` and the store are. -/
def lastUpdatedKey (_st : Dict VesselInfo) (_k : String) : Nat := 0

/-- Embeds `max_vessels` (src/app.py:36). -/
def max_vessels : Nat := 1000

/-- Embeds the store update inside `on_message`'s locked block
(src/app.py:119-130): write `vessel_data[mmsi] = vessel_info`, then, if the
size exceeds `max_vessels`, delete the first `len(vessel_data) - max_vessels`
keys of `sorted(vessel_data.keys(), key=lambda k: vessel_data[k].get("Last Updated", 0))`. -/
def upsert (maxV : Nat) (st : Dict VesselInfo) (mmsi : String) (info : VesselInfo) :
    Dict VesselInfo :=
  let st' := dictInsert mmsi info st
  if maxV < st'.length then
    let oldest := (sortByKey (lastUpdatedKey st') (keys st')).take (st'.length - maxV)
    oldest.foldl (fun acc k => dictRemove k acc) st'
  else st'

/-- Model of a parsed inbound JSON frame, holding exactly the fields
`on_message` reads. `isPositionReport` embeds the marker check
`"Message" in data and "PositionReport" in data["Message"]` (src/app.py:90);
`hasMetaData` embeds whether `data["MetaData"]` (src/app.py:92) succeeds — a
missing block raises `KeyError`, caught by the handler's `except`. The
coordinate fields carry raw JSON values (`position.get` yields `none` when
the field is absent, and any JSON value — numeric or not — otherwise). A
frame that `json.loads` rejects never reaches these fields: the handler
catches the error and leaves the store untouched, so it is omitted from the
model. -/
structure InMsg where
  isPositionReport : Bool
  hasMetaData : Bool
  userID : Option Nat
  latitude : Option JVal
  longitude : Option JVal
  sog : Option ℚ
  cog : Option ℚ
  shipName : Option String
deriving DecidableEq, Repr

/-- Embeds `str(position.get("UserID", ""))` (src/app.py:94): decimal `str`
of the JSON integer, or `str("") = ""` when the field is absent. -/
def msgMMSI (msg : InMsg) : String :=
  match msg.userID with
  | some n => toString n
  | none => ""

/-- Embeds `on_message` (src/app.py:83-134) as a store transformer: skip
non-position-reports; raise-and-catch on a missing metadata block; process
only foreign MMSIs; skip on missing latitude or longitude; otherwise build
`vessel_info` and upsert it under its MMSI. The `lat is None or lon is None`
check (src/app.py:103) only filters absent coordinates; non-numeric raw
values pass it and reach `find_nearest_port`, whose raw-value behavior is
`find_nearest_port_raw`, and are stored verbatim in the record. -/
def on_message (maxV : Nat) (st : Dict VesselInfo) (msg : InMsg) : Dict VesselInfo :=
  if msg.isPositionReport then
    if msg.hasMetaData then
      if is_foreign_ship (msgMMSI msg) then
        match msg.latitude, msg.longitude with
        | some lat, some lon =>
            upsert maxV st (msgMMSI msg)
              ⟨msgMMSI msg, msg.shipName.getD "Unknown", lat, lon, msg.sog, msg.cog,
               find_nearest_port_raw lat lon⟩
        | _, _ => st
      else st
    else st
  else st

/-- The store reached from the empty initial store (src/app.py:35) after a
sequence of inbound frames has been handled by `on_message`. -/
def processMessages (maxV : Nat) (msgs : List InMsg) : Dict VesselInfo :=
  msgs.foldl (on_message maxV) []

/-- Embeds `sample_data` (src/app.py:41-69). -/
def sample_data : List VesselInfo :=
  [⟨"220123456", "Sample Vessel 1", JVal.num (q 337500), JVal.num (q (-1182600)),
    some (q 125000), some (q 1800000), "Los Angeles"⟩,
   ⟨"345678901", "Sample Vessel 2", JVal.num (q 406700), JVal.num (q (-741800)),
    some (q 83000), some (q 900000), "New York/New Jersey"⟩,
   ⟨"412345678", "Sample Vessel 3", JVal.num (q 320300), JVal.num (q (-811500)),
    some (q 0), some (q 2700000), "Savannah"⟩]

/-- Embeds the data and status-message outputs of the `update_table` callback
(src/app.py:243-289); the timestamp and connection-status outputs read
wall-clock time and the connection flag, outside the claims' scope. Python's
`if not vessels` substitutes the sample data for an empty store, and
`if not api_key` is true for an unset (`none`) or empty key. -/
def update_table (store : Dict VesselInfo) (selectedPorts : List String)
    (apiKey : Option String) : List VesselInfo × String :=
  let vessels := values store
  let vs := if vessels.isEmpty then sample_data else vessels
  let statusMessage :=
    if vessels.isEmpty then
      "Using sample data. " ++
        (if apiKey.getD "" = "" then "AISSTREAM_API_KEY not set."
         else "Waiting for WebSocket data...")
    else ""
  let filtered := vs.filter (fun v => decide (v.port ∈ selectedPorts))
  let statusMessage :=
    if filtered.isEmpty then
      statusMessage ++ " No vessels found for selected ports. Try selecting different ports."
    else statusMessage
  (filtered, statusMessage)

/-- Embeds `start_websocket` (src/app.py:166-191) reduced to its observable
decision: whether a connector thread is started. `os.getenv` yields `none`
when the variable is unset, and `if not api_key: return` starts nothing for
an unset or empty key. -/
def start_websocket (apiKey : Option String) : Bool :=
  match apiKey with
  | none => false
  | some k => if k = "" then false else true

/-- Modelled from the spec: the Message Decoder's error taxonomy (spec §4.2);
the source inlines decoding in `on_message` and has no named error values. -/
inductive DecodeError where
  | Malformed
  | NotAPositionReport
deriving DecidableEq, Repr

/-- Modelled from the spec: the decoded position-update record of spec §4.2. -/
structure PositionUpdate where
  id : String
  latitude : ℚ
  longitude : ℚ
  speed : Option ℚ
  course : Option ℚ
  displayName : String
deriving DecidableEq, Repr

/-- Modelled from the spec: `decode` (spec §4.2) — requires the
position-report marker and the identifier/latitude/longitude fields, which
the spec's data model types as float64, so a missing or non-numeric
coordinate is `Malformed`; extracts the optional fields, defaulting the
display name to "Unknown". -/
def decode (msg : InMsg) : Except DecodeError PositionUpdate :=
  if msg.isPositionReport then
    match msg.userID, msg.latitude, msg.longitude with
    | some uid, some (JVal.num lat), some (JVal.num lon) =>
        .ok ⟨toString uid, lat, lon, msg.sog, msg.cog, msg.shipName.getD "Unknown"⟩
    | _, _, _ => .error .Malformed
  else .error .NotAPositionReport


/-- Predicate on stored entries: the record was classified foreign; its port
is one of the ten fixed port names or the exception fallback "Unknown"; and
whenever its stored raw coordinates are numeric, the port is one of the ten
names. -/
def vesselOK (kv : String × VesselInfo) : Prop :=
  is_foreign_ship kv.2.mmsi = true ∧
  (kv.2.port ∈ PORT_NAMES ∨ kv.2.port = "Unknown") ∧
  (∀ lat lon : ℚ, kv.2.latitude = JVal.num lat → kv.2.longitude = JVal.num lon →
    kv.2.port ∈ PORT_NAMES)

/-- Concrete record: a stale vessel (receives no refresh in the C2 scenario). -/
def recB : VesselInfo := ⟨"200000002", "Bravo", JVal.num (q 10), JVal.num (q 10), none, none, "Miami"⟩

/-- Concrete record: first position of the vessel that is later refreshed. -/
def recA1 : VesselInfo := ⟨"300000001", "Alpha", JVal.num 0, JVal.num 0, none, none, "Miami"⟩

/-- Concrete record: refreshed position of the same vessel as `recA1`. -/
def recA2 : VesselInfo := ⟨"300000001", "Alpha", JVal.num (q 20), JVal.num (q 20), none, none, "Miami"⟩

/-- Concrete record: the newest vessel, whose arrival triggers eviction. -/
def recC : VesselInfo := ⟨"240000003", "Charlie", JVal.num (q 30), JVal.num (q 30), none, none, "Miami"⟩

/-- Concrete record resolved to Miami, used in snapshot-filter statements. -/
def recMiami : VesselInfo := ⟨"230000001", "Vessel M", JVal.num (q 257788), JVal.num (q (-801780)), none, none, "Miami"⟩

/-- Concrete record: first write under a repeated identifier. -/
def recW1 : VesselInfo := ⟨"230000005", "Waver", JVal.num 0, JVal.num 0, some (q 125000), none, "Miami"⟩

/-- Concrete record: second write under the same identifier as `recW1`. -/
def recW2 : VesselInfo := ⟨"230000005", "Waver II", JVal.num (q 5), JVal.num (q 5), none, some (q 900000), "Houston"⟩

/-- Concrete frame without the position-report marker. -/
def msgNPR : InMsg := ⟨false, true, some 2, some (JVal.num 0), some (JVal.num 0), none, none, none⟩

/-- Concrete position-report frame whose position block has no `UserID`. -/
def msgNoId : InMsg := ⟨true, true, none, some (JVal.num 0), some (JVal.num 0), none, none, none⟩

/-- Concrete accepted position-report frame from a foreign vessel. -/
def msgW : InMsg := ⟨true, true, some 2, some (JVal.num 0), some (JVal.num 0), none, none, some "Tug"⟩

/-- The record `on_message` builds from `msgW` (its position resolves to Miami). -/
def infoW : VesselInfo := ⟨"2", "Tug", JVal.num 0, JVal.num 0, none, none, "Miami"⟩

/-- Concrete position-report frame from a foreign vessel whose JSON
`Latitude` is a non-numeric value: it is not `None`, so it passes the check
at src/app.py:103 and reaches `find_nearest_port`. -/
def msgBad : InMsg :=
  ⟨true, true, some 2, some JVal.nonNum, some (JVal.num 0), none, none, some "Tug"⟩

/-- The record `on_message` stores for `msgBad`: the bare `except` in
`find_nearest_port` yields Port = "Unknown", and the raw non-numeric latitude
is stored verbatim. -/
def infoBad : VesselInfo := ⟨"2", "Tug", JVal.nonNum, JVal.num 0, none, none, "Unknown"⟩

set_option maxRecDepth 4000

/-! ### Helper lemmas -/

/-- The left fold modelling Python's `min` returns the first minimal element:
the list splits as `pre ++ result :: post` with the result weakly minimal over
the whole list and strictly below every element of `pre`. -/
theorem minFold_decomp (key : α → ℚ) : ∀ (ps : List α) (p : α),
    ∃ pre post, p :: ps = pre ++ minFold key p ps :: post ∧
      (∀ x ∈ p :: ps, key (minFold key p ps) ≤ key x) ∧
      (∀ x ∈ pre, key (minFold key p ps) < key x) := by
  intro ps
  induction ps with
  | nil =>
      intro p
      refine ⟨[], [], rfl, ?_, by simp⟩
      intro x hx
      rcases List.mem_singleton.mp hx with rfl
      exact le_refl _
  | cons x ps ih =>
      intro p
      have hstep : minFold key p (x :: ps) = minFold key (if key x < key p then x else p) ps := rfl
      by_cases hx : key x < key p
      · obtain ⟨pre, post, hdec, hmin, hpre⟩ := ih x
        rw [hstep, if_pos hx]
        have hrx : key (minFold key x ps) ≤ key x := hmin x (List.mem_cons_self x ps)
        refine ⟨p :: pre, post, ?_, ?_, ?_⟩
        · rw [List.cons_append, ← hdec]
        · intro y hy
          rcases List.mem_cons.mp hy with rfl | hy'
          · exact le_of_lt (lt_of_le_of_lt hrx hx)
          · exact hmin y hy'
        · intro y hy
          rcases List.mem_cons.mp hy with rfl | hy'
          · exact lt_of_le_of_lt hrx hx
          · exact hpre y hy'
      · obtain ⟨pre, post, hdec, hmin, hpre⟩ := ih p
        rw [hstep, if_neg hx]
        have hpx : key p ≤ key x := le_of_not_lt hx
        cases pre with
        | nil =>
            simp only [List.nil_append] at hdec
            injection hdec with h1 h2
            refine ⟨[], x :: ps, ?_, ?_, by simp⟩
            · rw [List.nil_append, ← h1]
            · intro y hy
              rcases List.mem_cons.mp hy with rfl | hy'
              · rw [← h1]
              · rcases List.mem_cons.mp hy' with rfl | hy''
                · rw [← h1]; exact hpx
                · exact hmin y (List.mem_cons_of_mem p hy'')
        | cons a pre' =>
            simp only [List.cons_append] at hdec
            injection hdec with h1 h2
            subst h1
            have hrp : key (minFold key p ps) < key p := hpre p (List.mem_cons_self p pre')
            refine ⟨p :: x :: pre', post, ?_, ?_, ?_⟩
            · rw [List.cons_append, List.cons_append, ← h2]
            · intro y hy
              rcases List.mem_cons.mp hy with rfl | hy'
              · exact le_of_lt hrp
              · rcases List.mem_cons.mp hy' with rfl | hy''
                · exact le_trans (le_of_lt hrp) hpx
                · exact hmin y (List.mem_cons_of_mem p hy'')
            · intro y hy
              rcases List.mem_cons.mp hy with rfl | hy'
              · exact hrp
              · rcases List.mem_cons.mp hy' with rfl | hy''
                · exact lt_of_lt_of_le hrp hpx
                · exact hpre y (List.mem_cons_of_mem p hy'')

/-- Full characterization of `find_nearest_port`: the port set splits around
the returned port, which minimizes the Manhattan distance, strictly so
against every port listed before it. -/
theorem find_nearest_port_decomp (lat lon : ℚ) :
    ∃ pre pc post, PORT_COORDINATES = pre ++ pc :: post ∧
      find_nearest_port lat lon = pc.1 ∧
      (∀ x ∈ PORT_COORDINATES, manhattan lat lon pc ≤ manhattan lat lon x) ∧
      (∀ x ∈ pre, manhattan lat lon pc < manhattan lat lon x) := by
  obtain ⟨p, ps, hpc, hf⟩ :
      ∃ p ps, PORT_COORDINATES = p :: ps ∧
        find_nearest_port lat lon = (minFold (manhattan lat lon) p ps).1 :=
    ⟨_, _, rfl, rfl⟩
  obtain ⟨pre, post, hdec, hmin, hpre⟩ := minFold_decomp (manhattan lat lon) ps p
  refine ⟨pre, minFold (manhattan lat lon) p ps, post, ?_, hf, ?_, hpre⟩
  · rw [hpc]; exact hdec
  · rw [hpc]; exact hmin

/-- Resolution against the fixed non-empty port set always lands in the set
of the ten port names. -/
theorem find_nearest_port_mem (lat lon : ℚ) : find_nearest_port lat lon ∈ PORT_NAMES := by
  obtain ⟨pre, pc, post, hdec, hname, -, -⟩ := find_nearest_port_decomp lat lon
  rw [hname, PORT_NAMES, hdec]
  simp

/-- Membership after a dict write: the element is the new binding or was
already present. -/
theorem mem_dictInsert {kv : String × α} {k : String} {v : α} :
    ∀ {st : Dict α}, kv ∈ dictInsert k v st → kv = (k, v) ∨ kv ∈ st := by
  intro st
  induction st with
  | nil =>
      intro h
      simp only [dictInsert, List.mem_singleton] at h
      exact Or.inl h
  | cons a rest ih =>
      obtain ⟨k', v'⟩ := a
      intro h
      simp only [dictInsert] at h
      by_cases hk : k' = k
      · rw [if_pos hk] at h
        rcases List.mem_cons.mp h with rfl | h'
        · exact Or.inl rfl
        · exact Or.inr (List.mem_cons_of_mem _ h')
      · rw [if_neg hk] at h
        rcases List.mem_cons.mp h with rfl | h'
        · exact Or.inr (List.mem_cons_self _ _)
        · rcases ih h' with h'' | h''
          · exact Or.inl h''
          · exact Or.inr (List.mem_cons_of_mem _ h'')

/-- Membership after a dict delete implies membership before it. -/
theorem mem_dictRemove {kv : String × α} {k : String} :
    ∀ {st : Dict α}, kv ∈ dictRemove k st → kv ∈ st := by
  intro st
  induction st with
  | nil => intro h; simp [dictRemove] at h
  | cons a rest ih =>
      obtain ⟨k', v'⟩ := a
      intro h
      simp only [dictRemove] at h
      by_cases hk : k' = k
      · rw [if_pos hk] at h
        exact List.mem_cons_of_mem _ h
      · rw [if_neg hk] at h
        rcases List.mem_cons.mp h with rfl | h'
        · exact List.mem_cons_self _ _
        · exact List.mem_cons_of_mem _ (ih h')

/-- Membership after a batch of dict deletes implies membership before it. -/
theorem mem_removeList {kv : String × α} :
    ∀ (ks : List String) (st : Dict α),
      kv ∈ ks.foldl (fun acc k => dictRemove k acc) st → kv ∈ st := by
  intro ks
  induction ks with
  | nil => intro st h; exact h
  | cons k ks ih =>
      intro st h
      exact mem_dictRemove (ih (dictRemove k st) h)

/-- Membership after `upsert`: the element is the new binding or was already
present (eviction only removes entries). -/
theorem mem_upsert {kv : String × VesselInfo} {maxV : Nat} {st : Dict VesselInfo}
    {m : String} {info : VesselInfo} (h : kv ∈ upsert maxV st m info) :
    kv = (m, info) ∨ kv ∈ st := by
  simp only [upsert] at h
  split at h
  · exact mem_dictInsert (mem_removeList _ _ h)
  · exact mem_dictInsert h

/-- Keys of a cons store. -/
theorem keys_cons (a : String × α) (st : Dict α) : keys (a :: st) = a.1 :: keys st := rfl

/-- Overwriting an existing key leaves the key sequence unchanged. -/
theorem keys_dictInsert_of_mem {k : String} (v : α) :
    ∀ {st : Dict α}, k ∈ keys st → keys (dictInsert k v st) = keys st := by
  intro st
  induction st with
  | nil => intro h; simp [keys] at h
  | cons a rest ih =>
      obtain ⟨k', v'⟩ := a
      intro h
      simp only [dictInsert]
      by_cases hk : k' = k
      · rw [if_pos hk]
        simp [keys, hk]
      · rw [if_neg hk]
        rw [keys_cons] at h
        rcases List.mem_cons.mp h with h' | h'
        · exact absurd h'.symm hk
        · rw [keys_cons, keys_cons, ih h']

/-- Writing a fresh key appends the binding at the end. -/
theorem dictInsert_of_not_mem {k : String} (v : α) :
    ∀ {st : Dict α}, k ∉ keys st → dictInsert k v st = st ++ [(k, v)] := by
  intro st
  induction st with
  | nil => intro _; rfl
  | cons a rest ih =>
      obtain ⟨k', v'⟩ := a
      intro h
      rw [keys_cons, List.mem_cons] at h
      push_neg at h
      have hk : ¬ (k' = k) := fun e => h.1 e.symm
      rw [show dictInsert k v ((k', v') :: rest) = (k', v') :: dictInsert k v rest by
        simp [dictInsert, hk]]
      rw [ih h.2, List.cons_append]

/-- Reading back the key just written yields the value just written. -/
theorem lookup_dictInsert (k : String) (v : α) :
    ∀ (st : Dict α), lookup k (dictInsert k v st) = some v := by
  intro st
  induction st with
  | nil => simp [dictInsert, lookup]
  | cons a rest ih =>
      obtain ⟨k', v'⟩ := a
      simp only [dictInsert]
      by_cases hk : k' = k
      · rw [if_pos hk]; simp [lookup]
      · rw [if_neg hk]; simp only [lookup, if_neg hk]; exact ih

/-- Lookup skips a leading block that does not contain the key. -/
theorem lookup_append_of_not_mem {k : String} :
    ∀ {l1 : Dict α} (l2 : Dict α), k ∉ keys l1 → lookup k (l1 ++ l2) = lookup k l2 := by
  intro l1
  induction l1 with
  | nil => intro l2 _; rfl
  | cons a rest ih =>
      obtain ⟨k', v'⟩ := a
      intro l2 h
      rw [keys_cons, List.mem_cons] at h
      push_neg at h
      have hk : ¬ (k' = k) := fun e => h.1 e.symm
      rw [List.cons_append, show lookup k (((k', v') : String × α) :: (rest ++ l2))
          = lookup k (rest ++ l2) by simp [lookup, hk]]
      exact ih l2 h.2

/-- The key list has the same length as the store. -/
theorem length_keys (st : Dict α) : (keys st).length = st.length := by
  simp [keys]

/-- Under the constant "Last Updated" key, stable insertion appends at the end. -/
theorem insertByKey_lastUpdated (st : Dict VesselInfo) (x : String) :
    ∀ l, insertByKey (lastUpdatedKey st) x l = l ++ [x] := by
  intro l
  induction l with
  | nil => rfl
  | cons y ys ih => simp [insertByKey, lastUpdatedKey, ih]

/-- Under the constant "Last Updated" key, the stable sort is the identity:
every element ties, so the original (dict-insertion) order is kept. -/
theorem sortByKey_lastUpdated (st : Dict VesselInfo) :
    ∀ l, sortByKey (lastUpdatedKey st) l = l := by
  have haux : ∀ (l acc : List String),
      l.foldl (fun acc x => insertByKey (lastUpdatedKey st) x acc) acc = acc ++ l := by
    intro l
    induction l with
    | nil => intro acc; simp
    | cons x xs ih =>
        intro acc
        rw [List.foldl_cons, ih, insertByKey_lastUpdated]
        simp
  intro l
  simp [sortByKey, haux]

/-- Appending a binding under a fresh key keeps the keys distinct. -/
theorem keys_append_single_nodup {st : Dict α} {k : String} {v : α}
    (hnd : (keys st).Nodup) (hm : k ∉ keys st) : (keys (st ++ [(k, v)])).Nodup := by
  have hk : keys (st ++ [(k, v)]) = keys st ++ [k] := by simp [keys]
  rw [hk, List.nodup_append]
  refine ⟨hnd, List.nodup_singleton k, ?_⟩
  intro a ha hb
  rw [List.mem_singleton] at hb
  subst hb
  exact hm ha

/-- Workhorse for the store update: starting from a store with distinct keys
that is within capacity (capacity at least 1), `upsert` keeps the keys
distinct, keeps the store within capacity, leaves the new record readable
under its key, and keeps that key present. -/
theorem upsert_spec (maxV : Nat) (st : Dict VesselInfo) (m : String) (r : VesselInfo)
    (hnd : (keys st).Nodup) (hlen : st.length ≤ maxV) (hmax : 1 ≤ maxV) :
    (keys (upsert maxV st m r)).Nodup ∧ (upsert maxV st m r).length ≤ maxV ∧
      lookup m (upsert maxV st m r) = some r ∧ m ∈ keys (upsert maxV st m r) := by
  by_cases hm : m ∈ keys st
  · have hk : keys (dictInsert m r st) = keys st := keys_dictInsert_of_mem r hm
    have hlen' : (dictInsert m r st).length = st.length := by
      rw [← length_keys, hk, length_keys]
    have hcond : ¬ maxV < (dictInsert m r st).length := by omega
    have hres : upsert maxV st m r = dictInsert m r st := by
      simp only [upsert, if_neg hcond]
    rw [hres]
    refine ⟨by rw [hk]; exact hnd, by omega, lookup_dictInsert m r st, by rw [hk]; exact hm⟩
  · have hins : dictInsert m r st = st ++ [(m, r)] := dictInsert_of_not_mem r hm
    have hlen' : (dictInsert m r st).length = st.length + 1 := by rw [hins]; simp
    by_cases hcap : st.length + 1 ≤ maxV
    · have hcond : ¬ maxV < (dictInsert m r st).length := by omega
      have hres : upsert maxV st m r = st ++ [(m, r)] := by
        simp only [upsert, if_neg hcond]
        exact hins
      rw [hres]
      refine ⟨keys_append_single_nodup hnd hm, ?_, ?_, ?_⟩
      · simp only [List.length_append, List.length_singleton]
        omega
      · rw [lookup_append_of_not_mem _ hm]
        simp [lookup]
      · simp [keys]
    · have hlen0 : st.length = maxV := by omega
      obtain ⟨p, tl, rfl⟩ : ∃ p tl, st = p :: tl := by
        cases st with
        | nil => simp at hlen0; omega
        | cons p tl => exact ⟨p, tl, rfl⟩
      obtain ⟨pk, pv⟩ := p
      have hlenA : (((pk, pv) :: tl) ++ [(m, r)]).length = tl.length + 2 := by simp
      have hlen1 : tl.length + 1 = maxV := by simpa using hlen0
      have hres : upsert maxV ((pk, pv) :: tl) m r = tl ++ [(m, r)] := by
        simp only [upsert]
        rw [hins]
        have hcond : maxV < (((pk, pv) :: tl) ++ [(m, r)]).length := by omega
        rw [if_pos hcond, sortByKey_lastUpdated]
        have hone : (((pk, pv) :: tl) ++ [(m, r)]).length - maxV = 1 := by omega
        rw [hone]
        simp [keys, dictRemove]
      rw [hres]
      have hmtl : m ∉ keys tl := by
        intro hx
        exact hm (by rw [keys_cons]; exact List.mem_cons_of_mem _ hx)
      have hndtl : (keys tl).Nodup := by
        rw [keys_cons] at hnd
        exact hnd.of_cons
      refine ⟨keys_append_single_nodup hndtl hmtl, ?_, ?_, ?_⟩
      · have : (tl ++ [(m, r)]).length = tl.length + 1 := by simp
        omega
      · rw [lookup_append_of_not_mem _ hmtl]
        simp [lookup]
      · simp [keys]

/-- On numeric coordinates the raw-value entry point agrees with the numeric
`find_nearest_port`: the bare `except` is dead there. -/
theorem find_nearest_port_raw_num (lat lon : ℚ) :
    find_nearest_port_raw (JVal.num lat) (JVal.num lon) = find_nearest_port lat lon := rfl

/-- The fallback "Unknown" is not one of the ten port names. -/
theorem unknown_not_mem_port_names : "Unknown" ∉ PORT_NAMES := by decide

/-- Handling one frame preserves the store predicate `vesselOK`: a frame is
either skipped, or upserts a record guarded by the foreign check whose port
comes from `find_nearest_port`. -/
theorem on_message_preserves {maxV : Nat} {st : Dict VesselInfo} (msg : InMsg)
    (h : ∀ kv ∈ st, vesselOK kv) : ∀ kv ∈ on_message maxV st msg, vesselOK kv := by
  intro kv hkv
  by_cases h1 : msg.isPositionReport
  · by_cases h2 : msg.hasMetaData
    · by_cases h3 : is_foreign_ship (msgMMSI msg)
      · rcases hlat : msg.latitude with _ | lat
        · simp only [on_message, h1, h2, h3, hlat, if_true] at hkv
          exact h kv hkv
        · rcases hlon : msg.longitude with _ | lon
          · simp only [on_message, h1, h2, h3, hlat, hlon, if_true] at hkv
            exact h kv hkv
          · simp only [on_message, h1, h2, h3, hlat, hlon, if_true] at hkv
            rcases mem_upsert hkv with rfl | hkv'
            · refine ⟨h3, ?_, ?_⟩
              · cases lat with
                | num a =>
                    cases lon with
                    | num b => exact Or.inl (find_nearest_port_mem a b)
                    | nonNum => exact Or.inr rfl
                | nonNum => exact Or.inr rfl
              · intro a b ha hb
                cases lat with
                | num a' =>
                    cases lon with
                    | num b' => exact find_nearest_port_mem a' b'
                    | nonNum => exact JVal.noConfusion hb
                | nonNum => exact JVal.noConfusion ha
            · exact h kv hkv'
      · simp only [on_message, h1, h2, if_true] at hkv
        rw [if_neg h3] at hkv
        exact h kv hkv
    · simp only [on_message, h1, if_true] at hkv
      rw [if_neg h2] at hkv
      exact h kv hkv
  · simp only [on_message] at hkv
    rw [if_neg h1] at hkv
    exact h kv hkv

/-! ### Claims -/

/-- C1 (counterexample): the snapshot query with an EMPTY port-filter set does
not return all stored records — against a store holding one Miami record it
returns the empty list. This refutes "with an empty/unspecified port-filter
set returns all stored records". -/
theorem snapshot_empty_filter_counterexample :
    values [("230000001", recMiami)] = [recMiami] ∧
    (update_table [("230000001", recMiami)] [] (some "key")).1 = [] ∧
    ([] : List VesselInfo) ≠ [recMiami] := by decide

/-- C1 (amended): on a non-empty store, the snapshot query returns exactly the
stored records whose port is a member of the filter set; in particular an
empty filter set returns no records (not all records). -/
theorem update_table_port_filter (st : Dict VesselInfo) (ports : List String)
    (apiKey : Option String) (h : st ≠ []) :
    (update_table st ports apiKey).1 = (values st).filter (fun v => decide (v.port ∈ ports)) ∧
    (update_table st [] apiKey).1 = [] := by
  have hv : (values st).isEmpty = false := by
    cases st with
    | nil => exact absurd rfl h
    | cons a l => simp [values]
  constructor
  · simp [update_table, hv]
  · simp [update_table, hv]

/-- C1 (witness): the amended statement evaluated on a one-record store. -/
theorem update_table_port_filter_witness :
    (update_table [("230000001", recMiami)] ["Miami"] none).1
        = (values [("230000001", recMiami)]).filter (fun v => decide (v.port ∈ ["Miami"])) ∧
    (update_table [("230000001", recMiami)] [] none).1 = [] :=
  update_table_port_filter [("230000001", recMiami)] ["Miami"] none (by decide)

/-- C2: eviction does not follow the `lastSeen` timestamps. With capacity 2,
after upserting vessel A, vessel B, a refresh of A, and vessel C, the store
evicts A — the key first inserted — even though A was updated more recently
than B: the eviction sort key `vessel_data[k].get("Last Updated", 0)` is `0`
for every record (no record ever carries that key), so eviction degenerates
to dict insertion order instead of oldest-`lastSeen` order. -/
theorem eviction_ignores_last_seen :
    upsert 2 (upsert 2 (upsert 2 (upsert 2 [] "300000001" recA1) "200000002" recB)
        "300000001" recA2) "240000003" recC
      = [("200000002", recB), ("240000003", recC)] := by decide

/-- C3 (counterexample): a position report from a foreign vessel whose JSON
`Latitude` is a non-numeric value passes the `is None` check at
src/app.py:103, `find_nearest_port`'s bare `except` returns "Unknown", and
the record is stored with Port = "Unknown" — a reachable store state holding
a record whose port is not one of the ten port names, refuting the
unconditional "always one of the 10 names, never unknown" invariant. -/
theorem store_invariant_counterexample :
    ("2", infoBad) ∈ processMessages 1000 [msgBad] ∧
    infoBad.port = "Unknown" ∧ infoBad.port ∉ PORT_NAMES := by decide

/-- C3 (amended): every record in a store reachable by the message pipeline
from the empty store has an MMSI that was classified foreign at its last
update, and its port is one of the ten fixed port names or the exception
fallback "Unknown"; whenever the record's stored raw coordinates are numeric
JSON values — as they are for every well-typed feed frame — the port is one
of the ten names and never "Unknown". -/
theorem store_invariant_foreign_and_known_port (maxV : Nat) (msgs : List InMsg)
    (kv : String × VesselInfo) (hkv : kv ∈ processMessages maxV msgs) :
    is_foreign_ship kv.2.mmsi = true ∧
    (kv.2.port ∈ PORT_NAMES ∨ kv.2.port = "Unknown") ∧
    (∀ lat lon : ℚ, kv.2.latitude = JVal.num lat → kv.2.longitude = JVal.num lon →
      kv.2.port ∈ PORT_NAMES ∧ kv.2.port ≠ "Unknown") := by
  have haux : ∀ (ms : List InMsg) (st : Dict VesselInfo), (∀ kv ∈ st, vesselOK kv) →
      ∀ kv ∈ ms.foldl (on_message maxV) st, vesselOK kv := by
    intro ms
    induction ms with
    | nil => intro st h kv h'; exact h kv h'
    | cons m ms ih => intro st h kv h'; exact ih _ (on_message_preserves m h) kv h'
  have hok : vesselOK kv := haux msgs [] (by intro kv h'; simp at h') kv hkv
  refine ⟨hok.1, hok.2.1, ?_⟩
  intro lat lon hla hlo
  have hp : kv.2.port ∈ PORT_NAMES := hok.2.2 lat lon hla hlo
  exact ⟨hp, fun e => unknown_not_mem_port_names (e ▸ hp)⟩

/-- C3 (witness): the amended invariant evaluated on the store reached after
one accepted foreign position report with numeric coordinates. -/
theorem store_invariant_witness :
    is_foreign_ship (("2", infoW) : String × VesselInfo).2.mmsi = true ∧
    ((("2", infoW) : String × VesselInfo).2.port ∈ PORT_NAMES ∨
      (("2", infoW) : String × VesselInfo).2.port = "Unknown") ∧
    (∀ lat lon : ℚ,
      (("2", infoW) : String × VesselInfo).2.latitude = JVal.num lat →
      (("2", infoW) : String × VesselInfo).2.longitude = JVal.num lon →
      (("2", infoW) : String × VesselInfo).2.port ∈ PORT_NAMES ∧
        (("2", infoW) : String × VesselInfo).2.port ≠ "Unknown") :=
  store_invariant_foreign_and_known_port 1000 [msgW] ("2", infoW)
    (by with_unfolding_all decide)

/-- C4: for every latitude/longitude pair, `find_nearest_port` returns the
name of a port of the fixed 10-entry set — namely the first port in the set's
fixed iteration order that minimizes the Manhattan distance (every earlier
port is strictly farther, every port is at least as far). -/
theorem find_nearest_port_first_minimal (lat lon : ℚ) :
    PORT_COORDINATES.length = 10 ∧
    ∃ pre pc post, PORT_COORDINATES = pre ++ pc :: post ∧
      find_nearest_port lat lon = pc.1 ∧
      (∀ x ∈ PORT_COORDINATES, manhattan lat lon pc ≤ manhattan lat lon x) ∧
      (∀ x ∈ pre, manhattan lat lon pc < manhattan lat lon x) :=
  ⟨rfl, find_nearest_port_decomp lat lon⟩

/-- C5: `is_foreign_ship` is total and returns `true` exactly when the leading
character of the identifier is '2', '3' or '4'; all other strings, including
the empty string, yield `false`. -/
theorem is_foreign_ship_leading_char :
    (∀ mmsi : String, is_foreign_ship mmsi = true ↔
        mmsi.data.head? = some '2' ∨ mmsi.data.head? = some '3' ∨
          mmsi.data.head? = some '4') ∧
    is_foreign_ship "" = false := by
  constructor
  · intro mmsi
    obtain ⟨l⟩ := mmsi
    cases l with
    | nil => simp [is_foreign_ship, startswith]
    | cons c cs => simp [is_foreign_ship, startswith, or_assoc]
  · decide

/-- C6: two sequential upserts under the same identifier leave exactly one
record under that identifier, readable as the second call's record in full —
each update replaces the prior record wholesale. -/
theorem upsert_same_id_replaces (maxV : Nat) (st : Dict VesselInfo) (m : String)
    (r1 r2 : VesselInfo) (hnd : (keys st).Nodup) (hlen : st.length ≤ maxV)
    (hmax : 1 ≤ maxV) :
    lookup m (upsert maxV (upsert maxV st m r1) m r2) = some r2 ∧
    (keys (upsert maxV (upsert maxV st m r1) m r2)).count m = 1 := by
  obtain ⟨hnd1, hlen1, -, -⟩ := upsert_spec maxV st m r1 hnd hlen hmax
  obtain ⟨hnd2, -, hlook2, hmem2⟩ := upsert_spec maxV (upsert maxV st m r1) m r2 hnd1 hlen1 hmax
  exact ⟨hlook2, List.count_eq_one_of_mem hnd2 hmem2⟩

/-- C6 (witness): two writes under MMSI "230000005" starting from the empty
store, with capacity 1000. -/
theorem upsert_same_id_replaces_witness :
    lookup "230000005" (upsert 1000 (upsert 1000 [] "230000005" recW1) "230000005" recW2)
        = some recW2 ∧
    (keys (upsert 1000 (upsert 1000 [] "230000005" recW1) "230000005" recW2)).count
        "230000005" = 1 :=
  upsert_same_id_replaces 1000 [] "230000005" recW1 recW2 (by decide) (by decide) (by decide)

/-- C7: a frame lacking the position-report marker decodes to
`NotAPositionReport`, and the handler leaves the store unchanged (the model of
the handler is total, so rejection is never fatal). -/
theorem non_position_report_leaves_store (maxV : Nat) (st : Dict VesselInfo) (msg : InMsg)
    (h : msg.isPositionReport = false) :
    decode msg = Except.error DecodeError.NotAPositionReport ∧ on_message maxV st msg = st := by
  constructor
  · simp [decode, h]
  · simp [on_message, h]

/-- C7 (witness): a concrete non-position-report frame against the empty store. -/
theorem non_position_report_leaves_store_witness :
    decode msgNPR = Except.error DecodeError.NotAPositionReport ∧
    on_message 1000 [] msgNPR = [] :=
  non_position_report_leaves_store 1000 [] msgNPR rfl

/-- C8: with the feed API key absent, no connector is started, and the
snapshot consumer is served the sample data (filtered by the selected ports),
with a status message saying the key is not set. -/
theorem missing_api_key_degrades :
    start_websocket none = false ∧
    (∀ ports : List String, (update_table [] ports none).1
        = sample_data.filter (fun v => decide (v.port ∈ ports))) ∧
    (update_table [] PORT_NAMES none).2 = "Using sample data. AISSTREAM_API_KEY not set." := by
  refine ⟨rfl, fun ports => rfl, by decide⟩

/-- C10: a position-report frame whose position block carries no `UserID`
stringifies to the empty identifier, classifies as domestic, and is dropped
with the store left unchanged. -/
theorem missing_userid_dropped (maxV : Nat) (st : Dict VesselInfo) (msg : InMsg)
    (h1 : msg.isPositionReport = true) (h2 : msg.userID = none) :
    msgMMSI msg = "" ∧ is_foreign_ship (msgMMSI msg) = false ∧ on_message maxV st msg = st := by
  have hm : msgMMSI msg = "" := by simp [msgMMSI, h2]
  have hf : is_foreign_ship (msgMMSI msg) = false := by rw [hm]; decide
  refine ⟨hm, hf, ?_⟩
  simp [on_message, h1, hf]

/-- C10 (witness): a concrete position report without `UserID` against the
empty store. -/
theorem missing_userid_dropped_witness :
    msgMMSI msgNoId = "" ∧ is_foreign_ship (msgMMSI msgNoId) = false ∧
    on_message 1000 [] msgNoId = [] :=
  missing_userid_dropped 1000 [] msgNoId rfl rfl
